import Mathlib

/-!
Verification of the scoped priority-note store with optimistic remote
synchronization (`src/store/store.ts`, `PriorityNotesWidget`).

The embedding translates the data model and the store operations from the
TypeScript source:
* `Scope`, `Note`, `Store` mirror `SCOPES`, `interface Note`, `type Store`.
* `emptyStore`, `loadStore`, `saveStore` mirror the persistence adapter;
  the serialized blob is modelled as a JSON tree (`Json`), since
  `JSON.stringify` followed by `JSON.parse` is the identity on the values
  this store ever writes, and the spread `{...empty, ...parsed}` is
  modelled field-for-field by `spreadMerge`.
* `addNote`, `toggleDone`, `removeNote`, `clearAll` mirror the component's
  handlers; the single network suspension point of `addNote` is modelled by
  passing the settled outcome of the `fetch` call (`FetchResult`) as an
  explicit argument.
-/

namespace UbCalendarHub

/-- The five scopes: `SCOPES = ["today","week","month","semester","year"]`. -/
inductive Scope where
  | today
  | week
  | month
  | semester
  | year
deriving DecidableEq, Repr

/-- `interface Note { id: string; text: string; createdAt: number; done: boolean }`.
`createdAt` is epoch milliseconds (`Date.now()`), a nonnegative integer. -/
structure Note where
  id : String
  text : String
  createdAt : Nat
  done : Bool
deriving DecidableEq, Repr

/-- `type Store = Record<Scope, Note[]>`: every scope key present, each
mapped to an ordered list of notes. -/
structure Store where
  today : List Note
  week : List Note
  month : List Note
  semester : List Note
  year : List Note
deriving DecidableEq, Repr

/-- Member read `s[scope]` on a `Store`. -/
def Store.get (s : Store) : Scope → List Note
  | .today => s.today
  | .week => s.week
  | .month => s.month
  | .semester => s.semester
  | .year => s.year

/-- Computed-key update `{...s, [scope]: v}` on a well-typed `Store`. -/
def Store.set (s : Store) : Scope → List Note → Store
  | .today, v => { s with today := v }
  | .week, v => { s with week := v }
  | .month, v => { s with month := v }
  | .semester, v => { s with semester := v }
  | .year, v => { s with year := v }

/-- `emptyStore()` (store.ts lines 47-49). -/
def emptyStore : Store :=
  { today := [], week := [], month := [], semester := [], year := [] }

theorem Store.get_set_same (s : Store) (k : Scope) (v : List Note) :
    (s.set k v).get k = v := by
  cases k <;> rfl

theorem Store.get_set_other (s : Store) (k k' : Scope) (v : List Note)
    (h : k' ≠ k) : (s.set k v).get k' = s.get k' := by
  cases k <;> cases k' <;> first
    | rfl
    | exact absurd rfl h

theorem Store.ext_get (s t : Store) (h : ∀ k, s.get k = t.get k) : s = t := by
  cases s; cases t
  have h1 := h .today
  have h2 := h .week
  have h3 := h .month
  have h4 := h .semester
  have h5 := h .year
  simp only [Store.get] at h1 h2 h3 h4 h5
  simp_all

/-- Whitespace test of JavaScript `String.prototype.trim`: the ECMAScript
WhiteSpace production (TAB, VT, FF, SP, NBSP, ZWNBSP/BOM and the Unicode
space separators) together with the LineTerminator production (LF, CR,
LS, PS). -/
def isJsSpace (c : Char) : Bool :=
  c == ' ' || c == '\t' || c == '\n' || c == '\r' || c == '\x0b' ||
  c == '\x0c' || c == ' ' || c == ' ' || c == ' ' ||
  c == ' ' || c == ' ' || c == ' ' || c == ' ' ||
  c == ' ' || c == ' ' || c == ' ' || c == ' ' ||
  c == ' ' || c == ' ' || c == ' ' || c == ' ' ||
  c == ' ' || c == ' ' || c == '　' || c == '﻿'

/-- JavaScript `String.prototype.trim`: strip leading and trailing
whitespace. Used by `addNote` as `input.trim()` (store.ts line 81). -/
def jsTrim (s : String) : String :=
  ⟨(((s.data.dropWhile isJsSpace).reverse.dropWhile isJsSpace).reverse : List Char)⟩

example : jsTrim "  Buy milk " = "Buy milk" := by decide
example : jsTrim "   " = "" := by decide
example : jsTrim " ﻿ " = "" := by decide
example : jsTrim "  x　" = "x" := by decide

/-! ### Persistence adapter (store.ts lines 45-65)

The blob stored under `LS_KEY` is modelled as the JSON tree it prints to /
parses from: `JSON.stringify` followed by `JSON.parse` is the identity on
the trees this file manipulates (strings, booleans, integral numbers,
arrays, objects). -/

/-- A JSON value, the result of `JSON.parse` on the stored blob. -/
inductive Json where
  | null
  | bool (b : Bool)
  | num (n : Int)
  | str (s : String)
  | arr (elems : List Json)
  | obj (fields : List (String × Json))

/-- Last-binding lookup in a JSON object's field list: `JSON.parse` keeps
the last occurrence of a duplicated key, so the last binding is the value
of the resulting JavaScript property. -/
def lookupLast (fields : List (String × Json)) (k : String) : Option Json :=
  match fields with
  | [] => none
  | (k', v) :: rest =>
    match lookupLast rest k with
    | some w => some w
    | none => if k' == k then some v else none

/-- `fields` has a binding for key `k`. -/
def hasKey (fields : List (String × Json)) (k : String) : Bool :=
  fields.any fun p => p.1 == k

/-- Is this JSON value an array (a sequence)? -/
def Json.isArr : Json → Bool
  | .arr _ => true
  | _ => false

/-- One entry of the spread result `{...base, ...parsed}`: a key of `base`
keeps its position; its value is overridden when `parsed` also carries the
key. -/
def overrideEntry (fields : List (String × Json)) (p : String × Json) :
    String × Json :=
  (p.1, match lookupLast fields p.1 with
        | some v => v
        | none => p.2)

/-- JavaScript object spread `{...base, ...j}` (store.ts line 57, with
`base` the field list of `emptyStore()`): keys of `base` stay in place,
overridden by `j`'s value when present; keys of `j` not in `base` are
appended in order. Spreading a non-object contributes no string-named own
property: `null`/`bool`/`num` have none, and the index properties
(`"0"`, `"1"`, ...) contributed by a string or an array never collide with
a scope key, which is all this store ever reads. -/
def spreadMerge (base : List (String × Json)) (j : Json) :
    List (String × Json) :=
  match j with
  | .obj fields =>
    base.map (overrideEntry fields) ++
      fields.filter (fun q => !(hasKey base q.1))
  | _ => base

/-- The JSON field name of a scope key. -/
def scopeKey : Scope → String
  | .today => "today"
  | .week => "week"
  | .month => "month"
  | .semester => "semester"
  | .year => "year"

/-- JSON encoding of one note, as `JSON.stringify` lays it out. -/
def noteToJson (n : Note) : Json :=
  .obj [("id", .str n.id), ("text", .str n.text),
        ("createdAt", .num n.createdAt), ("done", .bool n.done)]

/-- Field list of the JSON object `JSON.stringify(store)` prints
(store.ts line 64): the five scope keys in declaration order. -/
def storeFields (c : Store) : List (String × Json) :=
  [("today", .arr (c.today.map noteToJson)),
   ("week", .arr (c.week.map noteToJson)),
   ("month", .arr (c.month.map noteToJson)),
   ("semester", .arr (c.semester.map noteToJson)),
   ("year", .arr (c.year.map noteToJson))]

/-- `saveStore` (store.ts lines 63-65) writes this JSON tree under
`LS_KEY`, replacing any prior value. -/
def saveStore (c : Store) : Json :=
  .obj (storeFields c)

/-- What `localStorage.getItem(LS_KEY)` followed by `JSON.parse` can
yield inside `loadStore`'s `try` block. -/
inductive RawRead where
  | failure
  | absent
  | unparsable
  | parsed (j : Json)

/-- `loadStore()` (store.ts lines 51-61), as the field list of the
resulting JavaScript object: a storage-access failure (`getItem` throws)
or a parse failure lands in the `catch` and yields `emptyStore()`; a
missing key (`null`, falsy) yields `emptyStore()`; a parsed blob is merged
over the defaults by `{...empty, ...parsed}`. -/
def loadStore : RawRead → List (String × Json)
  | .failure => storeFields emptyStore
  | .absent => storeFields emptyStore
  | .unparsable => storeFields emptyStore
  | .parsed j => spreadMerge (storeFields emptyStore) j

/-! ### In-memory store operations (store.ts lines 80-148)

Every mutating handler updates the store with the same computed-key spread
`{...s, [scope]: value}`; on the well-typed `Store` this is `Store.set`.
`jsSet` below is the same update written on a raw JavaScript object's
field list, used to state the all-keys-present invariant. -/

/-- Computed-key spread `{...s, [k]: v}` on a raw object's field list: an
existing key keeps its position and takes the new value; a new key is
appended. This is the single update shape used by every mutating store
operation in the source (lines 93, 112-117, 122-125, 132-135, 139-142,
147). -/
def jsSet (fields : List (String × Json)) (k : String) (v : Json) :
    List (String × Json) :=
  if fields.any (fun p => p.1 == k) then
    fields.map fun p => if p.1 == k then (p.1, v) else p
  else
    fields ++ [(k, v)]

/-- Provisional identifier `` `tmp-${Date.now()}-${Math.random()...}` ``
(store.ts line 85). -/
def mkTempId (now : Nat) (rand : String) : String :=
  "tmp-" ++ toString now ++ "-" ++ rand

/-- `type CreateNoteResponse = { id?: string }` (store.ts line 78); `id :=
none` covers an absent or `null`/`undefined` `id` field (and a `null`
body, for which `data?.id` is likewise `undefined`). -/
structure CreateNoteResponse where
  id : Option String
deriving DecidableEq, Repr

/-- The settled outcome of the `fetch` call in `addNote` (store.ts lines
98-108): a transport fault (the promise rejects), or a response with its
`ok` flag and the outcome of `await resp.json()` (`none` when the body is
malformed and `json()` rejects). -/
inductive FetchResult where
  | fault
  | response (ok : Bool) (body : Option CreateNoteResponse)
deriving DecidableEq, Repr

/-- Everything `addNote` observably does besides returning: the final
store, whether the network request was issued, and whether the failure
alert was shown. -/
structure AddNoteOutcome where
  store : Store
  networkCalled : Bool
  failureReported : Bool
deriving DecidableEq, Repr

/-- The `catch` block of `addNote` (store.ts lines 119-127): roll the
optimistic note back by filtering out the provisional identifier. -/
def rollbackTemp (s : Store) (scope : Scope) (tempId : String) : Store :=
  s.set scope ((s.get scope).filter fun n => n.id != tempId)

/-- Identifier reconciliation, the `setStore` of the success path
(store.ts lines 111-118): rewrite the identifier of every note whose `id`
equals `oldId`, keeping positions and the remaining fields. -/
def replaceIdentifier (s : Store) (scope : Scope) (oldId newId : String) :
    Store :=
  s.set scope ((s.get scope).map fun n =>
    if n.id == oldId then { n with id := newId } else n)

/-- `addNote` (store.ts lines 80-128) after its `fetch` has settled with
`fetched`. Steps, as in the source: trim and reject empty input (no state
change, no request); optimistically prepend the provisional note; on a
rejected fetch, a non-`ok` response (the `throw` on line 107) or a
malformed body, run the `catch` block: roll back and alert; on success
with a truthy `data?.id` (a non-empty string), swap in the canonical
identifier. -/
def addNote (scope : Scope) (input : String) (tempId : String) (now : Nat)
    (fetched : FetchResult) (s : Store) : AddNoteOutcome :=
  let text := jsTrim input
  if text == "" then
    { store := s, networkCalled := false, failureReported := false }
  else
    let optimistic : Note :=
      { id := tempId, text := text, createdAt := now, done := false }
    let s1 := s.set scope (optimistic :: s.get scope)
    match fetched with
    | .fault =>
      { store := rollbackTemp s1 scope tempId,
        networkCalled := true, failureReported := true }
    | .response ok body =>
      if ok then
        match body with
        | none =>
          { store := rollbackTemp s1 scope tempId,
            networkCalled := true, failureReported := true }
        | some data =>
          match data.id with
          | some cid =>
            if cid == "" then
              { store := s1, networkCalled := true, failureReported := false }
            else
              { store := replaceIdentifier s1 scope tempId cid,
                networkCalled := true, failureReported := false }
          | none =>
            { store := s1, networkCalled := true, failureReported := false }
      else
        { store := rollbackTemp s1 scope tempId,
          networkCalled := true, failureReported := true }

/-- `toggleDone` (store.ts lines 131-136). -/
def toggleDone (s : Store) (scope : Scope) (id : String) : Store :=
  s.set scope ((s.get scope).map fun n =>
    if n.id == id then { n with done := !n.done } else n)

/-- `removeNote` (store.ts lines 138-143). -/
def removeNote (s : Store) (scope : Scope) (id : String) : Store :=
  s.set scope ((s.get scope).filter fun n => n.id != id)

/-- `clearAll` (store.ts lines 145-148): gated by `window.confirm`; when
confirmed, the selected scope is replaced by the empty sequence. -/
def clearAll (confirmed : Bool) (s : Store) (scope : Scope) : Store :=
  if confirmed then s.set scope [] else s

/-! ### Helper lemmas -/

theorem Store.set_get_self (s : Store) (k : Scope) : s.set k (s.get k) = s := by
  cases k <;> rfl

theorem Store.set_set (s : Store) (k : Scope) (v w : List Note) :
    (s.set k v).set k w = s.set k w := by
  cases k <;> rfl

theorem map_eq_self_of_fixed {α : Type} (l : List α) (f : α → α)
    (h : ∀ a ∈ l, f a = a) : l.map f = l := by
  induction l with
  | nil => rfl
  | cons x xs ih =>
    simp only [List.map_cons, h x (List.mem_cons_self x xs)]
    rw [ih fun a ha => h a (List.mem_cons_of_mem x ha)]

/-- Concrete sample data, used by the witnesses below. -/
def sampleStore : Store :=
  { today := [{ id := "n1", text := "Read", createdAt := 3, done := false }],
    week := [{ id := "n2", text := "Plan", createdAt := 4, done := true }],
    month := [], semester := [], year := [] }

/-! ### The claims -/

/-- C7: for every scope and every input whose trimmed value is the empty
string, `addNote` performs no state change on the collection and issues no
network call (and shows no alert). -/
theorem addNote_empty_text_rejected (scope : Scope) (input tempId : String)
    (now : Nat) (fetched : FetchResult) (s : Store)
    (h : jsTrim input = "") :
    addNote scope input tempId now fetched s =
      { store := s, networkCalled := false, failureReported := false } := by
  unfold addNote
  simp [h]

/-- C7 witness: blank input `"   "` against a populated store. -/
theorem addNote_empty_text_rejected_witness :
    addNote .today "   " "tmp-1-a" 7 .fault sampleStore =
      { store := sampleStore, networkCalled := false,
        failureReported := false } :=
  addNote_empty_text_rejected .today "   " "tmp-1-a" 7 .fault sampleStore
    (by decide)

/-- C8: the confirmed clear operation replaces the selected scope's
sequence with the empty sequence and leaves every other scope's sequence
equal to its prior value. -/
theorem clearAll_scope_local (s : Store) (scope : Scope) :
    (clearAll true s scope).get scope = [] ∧
    ∀ k, k ≠ scope → (clearAll true s scope).get k = s.get k := by
  refine ⟨?_, fun k hk => ?_⟩
  · simp [clearAll, Store.get_set_same]
  · simp [clearAll, Store.get_set_other s scope k [] hk]

/-- C8 witness: clearing `"week"` empties it and leaves `"today"` as it
was. -/
theorem clearAll_scope_local_witness :
    (clearAll true sampleStore .week).get .week = [] ∧
    (clearAll true sampleStore .week).get .today = sampleStore.get .today :=
  ⟨(clearAll_scope_local sampleStore .week).1,
   (clearAll_scope_local sampleStore .week).2 .today (by decide)⟩

/-- C2: starting from a state where scope `"today"` is empty, if the
remote call succeeds with canonical id `"srv-1"`, then after
`addNote("today", "Buy milk")` settles the `"today"` scope holds exactly
one note, with id `"srv-1"`, text `"Buy milk"` and `done = false`. -/
theorem addNote_confirm (s : Store) (tempId : String) (now : Nat)
    (h : s.today = []) :
    (addNote .today "Buy milk" tempId now
        (.response true (some { id := some "srv-1" })) s).store.today =
      [{ id := "srv-1", text := "Buy milk", createdAt := now,
         done := false }] := by
  unfold addNote replaceIdentifier
  simp [Store.get, Store.set, h, show jsTrim "Buy milk" = "Buy milk" by decide]

/-- C2 witness: from the empty store with a concrete provisional id. -/
theorem addNote_confirm_witness :
    (addNote .today "Buy milk" "tmp-5-ff" 5
        (.response true (some { id := some "srv-1" })) emptyStore).store.today =
      [{ id := "srv-1", text := "Buy milk", createdAt := 5,
         done := false }] :=
  addNote_confirm emptyStore "tmp-5-ff" 5 rfl

/-- C1: for every scope and every input that is non-empty after trimming,
if the fetch settles in any way other than an `ok` response with a body
that parses (a transport fault, a non-`ok` status, or a malformed body),
then after `addNote` settles the store is equal to its state before the
call — the provisional note (whose identifier is fresh for the scope) is
fully removed — and the failure alert is shown. -/
theorem addNote_rollback_atomic (scope : Scope) (input tempId : String)
    (now : Nat) (fetched : FetchResult) (s : Store)
    (htext : jsTrim input ≠ "")
    (hfresh : ∀ n ∈ s.get scope, n.id ≠ tempId)
    (hfail : ∀ data : CreateNoteResponse,
      fetched ≠ .response true (some data)) :
    (addNote scope input tempId now fetched s).store = s ∧
    (addNote scope input tempId now fetched s).failureReported = true := by
  have hne : (jsTrim input == "") = false := beq_eq_false_iff_ne.mpr htext
  have hroll : rollbackTemp
      (s.set scope ({ id := tempId, text := jsTrim input,
                      createdAt := now, done := false } :: s.get scope))
        scope tempId = s := by
    unfold rollbackTemp
    rw [Store.get_set_same, Store.set_set, List.filter_cons]
    have h1 : (({ id := tempId, text := jsTrim input,
                  createdAt := now, done := false } : Note).id != tempId) =
        false := by simp
    rw [h1]
    simp only [Bool.false_eq_true, if_false]
    rw [List.filter_eq_self.mpr fun n hn => by simpa using hfresh n hn,
      Store.set_get_self]
  cases fetched with
  | fault => unfold addNote; simp [hne, hroll]
  | response ok body =>
    cases ok with
    | false => unfold addNote; simp [hne, hroll]
    | true =>
      cases body with
      | none => unfold addNote; simp [hne, hroll]
      | some data => exact absurd rfl (hfail data)

/-- C1 witness: a non-`ok` response rolls a fresh note back out of a
populated store and reports the failure. -/
theorem addNote_rollback_atomic_witness :
    (addNote .today "Buy milk" "tmp-9-zz" 9 (.response false none)
        sampleStore).store = sampleStore ∧
    (addNote .today "Buy milk" "tmp-9-zz" 9 (.response false none)
        sampleStore).failureReported = true :=
  addNote_rollback_atomic .today "Buy milk" "tmp-9-zz" 9
    (.response false none) sampleStore (by decide) (by decide)
    (fun data h => by simp at h)

/-- C10: a successful response whose `id` field is the empty string is
treated exactly like a response that omits the `id`: the optimistic note
keeps its provisional identifier (which always starts with `"tmp-"`), the
collection is otherwise just the optimistic insertion, and no failure is
reported. The two `Date.now()` calls of the source (identifier and
`createdAt`) are independent arguments. -/
theorem addNote_empty_id_keeps_provisional (scope : Scope) (input : String)
    (idNow createdNow : Nat) (rand : String) (s : Store)
    (h : jsTrim input ≠ "") :
    addNote scope input (mkTempId idNow rand) createdNow
        (.response true (some { id := some "" })) s =
      addNote scope input (mkTempId idNow rand) createdNow
        (.response true (some { id := none })) s ∧
    (addNote scope input (mkTempId idNow rand) createdNow
        (.response true (some { id := some "" })) s).store =
      s.set scope ({ id := mkTempId idNow rand, text := jsTrim input,
                     createdAt := createdNow, done := false } ::
        s.get scope) ∧
    (addNote scope input (mkTempId idNow rand) createdNow
        (.response true (some { id := some "" })) s).failureReported =
      false ∧
    ∃ rest, mkTempId idNow rand = "tmp-" ++ rest := by
  have hne : (jsTrim input == "") = false := beq_eq_false_iff_ne.mpr h
  refine ⟨?_, ?_, ?_, toString idNow ++ "-" ++ rand, ?_⟩
  · unfold addNote; simp [hne]
  · unfold addNote; simp [hne]
  · unfold addNote; simp [hne]
  · simp [mkTempId, String.append_assoc]

/-- C10 witness: concrete blank-id response against the sample store. -/
theorem addNote_empty_id_keeps_provisional_witness :
    addNote .week "Focus" (mkTempId 3 "ab") 4
        (.response true (some { id := some "" })) sampleStore =
      addNote .week "Focus" (mkTempId 3 "ab") 4
        (.response true (some { id := none })) sampleStore ∧
    (addNote .week "Focus" (mkTempId 3 "ab") 4
        (.response true (some { id := some "" })) sampleStore).store =
      sampleStore.set .week ({ id := mkTempId 3 "ab", text := "Focus",
                               createdAt := 4, done := false } ::
        sampleStore.get .week) ∧
    (addNote .week "Focus" (mkTempId 3 "ab") 4
        (.response true (some { id := some "" }))
        sampleStore).failureReported = false ∧
    ∃ rest, mkTempId 3 "ab" = "tmp-" ++ rest := by
  have h := addNote_empty_id_keeps_provisional .week "Focus" 3 4 "ab"
    sampleStore (by decide)
  exact ⟨h.1, by rw [h.2.1]; decide, h.2.2.1, h.2.2.2⟩

/-- C6: identifier reconciliation is position- and field-preserving: it
keeps the sequence's length; at each position, a note whose id equals
`oldId` gets id `newId` with text, createdAt and done unchanged, and any
other note is unchanged; every other scope is unchanged; and if no note in
the scope carries `oldId`, the whole collection is unchanged (a no-op, not
an error). -/
theorem replaceIdentifier_frame (s : Store) (scope : Scope)
    (oldId newId : String) :
    (((replaceIdentifier s scope oldId newId).get scope).length =
      (s.get scope).length ∧
     ∀ i : Nat, ∀ hi : i < (s.get scope).length,
       ∀ hi' : i < ((replaceIdentifier s scope oldId newId).get scope).length,
       (((s.get scope).get ⟨i, hi⟩).id = oldId →
         (((replaceIdentifier s scope oldId newId).get scope).get
             ⟨i, hi'⟩).id = newId ∧
         (((replaceIdentifier s scope oldId newId).get scope).get
             ⟨i, hi'⟩).text = ((s.get scope).get ⟨i, hi⟩).text ∧
         (((replaceIdentifier s scope oldId newId).get scope).get
             ⟨i, hi'⟩).createdAt = ((s.get scope).get ⟨i, hi⟩).createdAt ∧
         (((replaceIdentifier s scope oldId newId).get scope).get
             ⟨i, hi'⟩).done = ((s.get scope).get ⟨i, hi⟩).done) ∧
       (((s.get scope).get ⟨i, hi⟩).id ≠ oldId →
         ((replaceIdentifier s scope oldId newId).get scope).get ⟨i, hi'⟩ =
           (s.get scope).get ⟨i, hi⟩)) ∧
    (∀ k, k ≠ scope →
      (replaceIdentifier s scope oldId newId).get k = s.get k) ∧
    ((∀ n ∈ s.get scope, n.id ≠ oldId) →
      replaceIdentifier s scope oldId newId = s) := by
  have key : ∀ i, ∀ hi : i < (s.get scope).length,
      ∀ hi' : i < ((replaceIdentifier s scope oldId newId).get scope).length,
      ((replaceIdentifier s scope oldId newId).get scope).get ⟨i, hi'⟩ =
        if (((s.get scope).get ⟨i, hi⟩).id == oldId) = true
        then { (s.get scope).get ⟨i, hi⟩ with id := newId }
        else (s.get scope).get ⟨i, hi⟩ := by
    intro i hi hi'
    simp [replaceIdentifier, Store.get_set_same, List.get_eq_getElem,
      List.getElem_map]
  refine ⟨⟨?_, fun i hi hi' => ⟨fun hmatch => ?_, fun hmiss => ?_⟩⟩,
    fun k hk => ?_, fun hnone => ?_⟩
  · simp [replaceIdentifier, Store.get_set_same]
  · rw [key i hi hi', if_pos (by simpa using hmatch)]
    exact ⟨rfl, rfl, rfl, rfl⟩
  · rw [key i hi hi', if_neg (by simpa using hmiss)]
  · exact Store.get_set_other s scope k _ hk
  · unfold replaceIdentifier
    rw [map_eq_self_of_fixed _ _ fun n hn => by
      simp [beq_eq_false_iff_ne.mpr (hnone n hn)]]
    exact Store.set_get_self s scope

/-- C6 witness: rewriting `"n1"` to `"srv-9"` in `"today"` touches only
that note's id, leaves `"week"` alone, and an unknown old id is a no-op. -/
theorem replaceIdentifier_frame_witness :
    ((((replaceIdentifier sampleStore .today "n1" "srv-9").get .today).get
        ⟨0, by decide⟩).id = "srv-9" ∧
     (((replaceIdentifier sampleStore .today "n1" "srv-9").get .today).get
        ⟨0, by decide⟩).text = "Read") ∧
    (replaceIdentifier sampleStore .today "n1" "srv-9").get .week =
      sampleStore.get .week ∧
    replaceIdentifier sampleStore .today "zzz" "srv-9" = sampleStore := by
  have h := replaceIdentifier_frame sampleStore .today "n1" "srv-9"
  have h2 := replaceIdentifier_frame sampleStore .today "zzz" "srv-9"
  have hpos := (h.1.2 0 (by decide) (by decide)).1 (by decide)
  exact ⟨⟨hpos.1, hpos.2.1⟩, h.2.1 .week (by decide),
    h2.2.2 (by decide)⟩

/-- C9: `toggleDone` and `removeNote` are total no-ops on an identifier no
note of the scope carries (the whole collection is unchanged, no error);
both leave every other scope unchanged; `toggleDone` flips exactly the
matching note's done flag, preserving its position, id, text and
createdAt, and leaves non-matching notes unchanged; and when exactly one
note carries the identifier, `removeNote` deletes exactly that note. -/
theorem toggle_remove_characterization (s : Store) (scope : Scope)
    (id : String) :
    ((∀ n ∈ s.get scope, n.id ≠ id) →
      toggleDone s scope id = s ∧ removeNote s scope id = s) ∧
    (∀ k, k ≠ scope → (toggleDone s scope id).get k = s.get k ∧
      (removeNote s scope id).get k = s.get k) ∧
    (((toggleDone s scope id).get scope).length = (s.get scope).length ∧
     ∀ i : Nat, ∀ hi : i < (s.get scope).length,
       ∀ hi' : i < ((toggleDone s scope id).get scope).length,
       (((s.get scope).get ⟨i, hi⟩).id = id →
         (((toggleDone s scope id).get scope).get ⟨i, hi'⟩).done =
           !((s.get scope).get ⟨i, hi⟩).done ∧
         (((toggleDone s scope id).get scope).get ⟨i, hi'⟩).id =
           ((s.get scope).get ⟨i, hi⟩).id ∧
         (((toggleDone s scope id).get scope).get ⟨i, hi'⟩).text =
           ((s.get scope).get ⟨i, hi⟩).text ∧
         (((toggleDone s scope id).get scope).get ⟨i, hi'⟩).createdAt =
           ((s.get scope).get ⟨i, hi⟩).createdAt) ∧
       (((s.get scope).get ⟨i, hi⟩).id ≠ id →
         ((toggleDone s scope id).get scope).get ⟨i, hi'⟩ =
           (s.get scope).get ⟨i, hi⟩)) ∧
    (∀ l₁ n l₂, s.get scope = l₁ ++ n :: l₂ → n.id = id →
      (∀ m ∈ l₁, m.id ≠ id) → (∀ m ∈ l₂, m.id ≠ id) →
      (removeNote s scope id).get scope = l₁ ++ l₂) := by
  have key : ∀ i, ∀ hi : i < (s.get scope).length,
      ∀ hi' : i < ((toggleDone s scope id).get scope).length,
      ((toggleDone s scope id).get scope).get ⟨i, hi'⟩ =
        if (((s.get scope).get ⟨i, hi⟩).id == id) = true
        then { (s.get scope).get ⟨i, hi⟩ with
               done := !((s.get scope).get ⟨i, hi⟩).done }
        else (s.get scope).get ⟨i, hi⟩ := by
    intro i hi hi'
    simp [toggleDone, Store.get_set_same, List.get_eq_getElem,
      List.getElem_map]
  refine ⟨fun hnone => ⟨?_, ?_⟩, fun k hk =>
    ⟨Store.get_set_other s scope k _ hk, Store.get_set_other s scope k _ hk⟩,
    ⟨?_, fun i hi hi' => ⟨fun hmatch => ?_, fun hmiss => ?_⟩⟩,
    fun l₁ n l₂ hsplit hn h₁ h₂ => ?_⟩
  · unfold toggleDone
    rw [map_eq_self_of_fixed _ _ fun n hn => by
      simp [beq_eq_false_iff_ne.mpr (hnone n hn)]]
    exact Store.set_get_self s scope
  · unfold removeNote
    rw [List.filter_eq_self.mpr fun n hn => by simpa using hnone n hn]
    exact Store.set_get_self s scope
  · simp [toggleDone, Store.get_set_same]
  · rw [key i hi hi', if_pos (by simpa using hmatch)]
    exact ⟨rfl, rfl, rfl, rfl⟩
  · rw [key i hi hi', if_neg (by simpa using hmiss)]
  · unfold removeNote
    rw [Store.get_set_same, hsplit, List.filter_append, List.filter_cons]
    rw [show (n.id != id) = false by simp [hn]]
    simp only [Bool.false_eq_true, if_false]
    rw [List.filter_eq_self.mpr fun m hm => by simpa using h₁ m hm,
      List.filter_eq_self.mpr fun m hm => by simpa using h₂ m hm]

/-- C9 witness: unknown id `"zz"` is a no-op for both operations; toggling
`"n2"` in `"week"` flips its done flag and keeps its text; removing `"n1"`
from `"today"` leaves that scope empty. -/
theorem toggle_remove_characterization_witness :
    (toggleDone sampleStore .today "zz" = sampleStore ∧
     removeNote sampleStore .today "zz" = sampleStore) ∧
    (((toggleDone sampleStore .week "n2").get .week).get
        ⟨0, by decide⟩).done = false ∧
    (((toggleDone sampleStore .week "n2").get .week).get
        ⟨0, by decide⟩).text = "Plan" ∧
    (removeNote sampleStore .today "n1").get .today = [] := by
  have h1 := (toggle_remove_characterization sampleStore .today "zz").1
    (by decide)
  have h2 := ((toggle_remove_characterization sampleStore .week "n2").2.2.1.2
    0 (by decide) (by decide)).1 (by decide)
  have h3 := (toggle_remove_characterization sampleStore .today "n1").2.2.2
    [] { id := "n1", text := "Read", createdAt := 3, done := false } []
    (by decide) rfl (by decide) (by decide)
  exact ⟨h1, by rw [h2.1]; decide, h2.2.2.1, h3⟩

/-! ### Persistence lemmas -/

theorem hasKey_storeFields (c : Store) (k : Scope) :
    hasKey (storeFields c) (scopeKey k) = true := by
  cases k <;> rfl

theorem any_congr_mem {α : Type} (l : List α) (p q : α → Bool)
    (h : ∀ a ∈ l, p a = q a) : l.any p = l.any q := by
  induction l with
  | nil => rfl
  | cons x xs ih =>
    simp only [List.any_cons, h x (List.mem_cons_self x xs),
      ih fun a ha => h a (List.mem_cons_of_mem x ha)]

theorem lookupLast_append (l₁ l₂ : List (String × Json)) (k : String) :
    lookupLast (l₁ ++ l₂) k =
      match lookupLast l₂ k with
      | some w => some w
      | none => lookupLast l₁ k := by
  induction l₁ with
  | nil =>
    simp only [List.nil_append]
    cases lookupLast l₂ k <;> rfl
  | cons p rest ih =>
    obtain ⟨k', v⟩ := p
    simp only [List.cons_append, lookupLast, List.append_eq, ih]
    cases lookupLast l₂ k <;> cases lookupLast rest k <;> rfl

theorem lookupLast_eq_none (l : List (String × Json)) (k : String)
    (h : ∀ p ∈ l, p.1 ≠ k) : lookupLast l k = none := by
  induction l with
  | nil => rfl
  | cons p rest ih =>
    obtain ⟨k', v⟩ := p
    have hk : (k' == k) = false :=
      beq_eq_false_iff_ne.mpr (by simpa using h (k', v) (List.mem_cons_self _ _))
    simp [lookupLast, ih fun q hq => h q (List.mem_cons_of_mem _ hq), hk]

/-- `{...parsed}[k]`: the member the parsed blob contributes at key `k`
under spread; `none` when the blob is not an object carrying `k` (a
non-object contributes no scope-named property). -/
def parsedScopeMember (j : Json) (k : String) : Option Json :=
  match j with
  | .obj fields => lookupLast fields k
  | _ => none

/-- C4: persistence round-trip: for every well-formed collection (each of
the five scopes an array of notes), saving and loading yields the same
object field-for-field — no data loss, nothing defaulted away. -/
theorem save_load_roundtrip (c : Store) :
    loadStore (.parsed (saveStore c)) = storeFields c := by
  rfl

/-- C3 counterexample: the blob `{"today": 5}` parses, yet loading passes
the malformed `"today"` member through unchanged instead of defaulting it
to the empty sequence. -/
theorem loadStore_malformed_not_defaulted :
    lookupLast (loadStore (.parsed (.obj [("today", .num 5)]))) "today" =
      some (.num 5) ∧ Json.num 5 ≠ Json.arr [] :=
  ⟨rfl, fun h => Json.noConfusion h⟩

/-- C3 (amended): `load` never raises: a storage-access failure, a missing
key or a parse failure each yield the default collection with all five
scopes empty, and any scope key the parsed blob does not carry is
defaulted to an empty sequence; a scope the blob carries with a malformed
value, however, is passed through unchanged. -/
theorem loadStore_fallback_defaults :
    (loadStore .failure = storeFields emptyStore ∧
     loadStore .absent = storeFields emptyStore ∧
     loadStore .unparsable = storeFields emptyStore) ∧
    (∀ j : Json, ∀ k : Scope, parsedScopeMember j (scopeKey k) = none →
      lookupLast (loadStore (.parsed j)) (scopeKey k) = some (.arr [])) := by
  refine ⟨⟨rfl, rfl, rfl⟩, fun j k h => ?_⟩
  cases j with
  | obj fields =>
    simp only [parsedScopeMember] at h
    show lookupLast (List.map (overrideEntry fields) (storeFields emptyStore)
      ++ List.filter _ fields) (scopeKey k) = some (.arr [])
    rw [lookupLast_append, lookupLast_eq_none]
    · cases k <;> simp [storeFields, emptyStore, lookupLast, overrideEntry,
        scopeKey] at h ⊢ <;> simp [h]
    · intro p hp hpk
      have h1 := (List.mem_filter.mp hp).2
      rw [hpk, hasKey_storeFields emptyStore k] at h1
      simp at h1
  | null => cases k <;> rfl
  | bool b => cases k <;> rfl
  | num n => cases k <;> rfl
  | str s => cases k <;> rfl
  | arr elems => cases k <;> rfl

/-- C3 witness: a blob that parses to a non-object defaults every scope,
shown at `"week"`. -/
theorem loadStore_fallback_defaults_witness :
    lookupLast (loadStore (.parsed (.num 7))) (scopeKey .week) =
      some (.arr []) :=
  loadStore_fallback_defaults.2 (.num 7) .week rfl

/-- C5 counterexample: for the parsed blob `{"today": 5}` the object
`load` returns carries the `"today"` key, but its value is `5` — not a
(possibly empty) sequence — so `load` does not map every scope to a
sequence. -/
theorem loadStore_scope_value_not_sequence :
    lookupLast (loadStore (.parsed (.obj [("today", .num 5)]))) "today" =
      some (.num 5) ∧ (Json.num 5).isArr = false :=
  ⟨rfl, rfl⟩

/-- C5 (amended): every one of the five scope keys is present — never
absent — in the object `load` returns, whatever the stored blob was; the
value at a scope key is the empty sequence except when the parsed blob
itself carried a member for that scope, in which case that member is
passed through (a sequence only if the blob's member was one); and the
computed-key update `{...s, [k]: v}` — the store-update shape used by
every mutating operation (optimistic insert, identifier replacement,
rollback removal, toggleDone, removeNote, clearAll) — preserves presence
of all five scope keys. Hence reading a scope never finds its key absent,
even at first start with no persisted data. -/
theorem all_scopes_always_present :
    (∀ raw : RawRead, ∀ k : Scope,
      hasKey (loadStore raw) (scopeKey k) = true) ∧
    (∀ raw : RawRead, ∀ k : Scope,
      lookupLast (loadStore raw) (scopeKey k) =
        match raw with
        | .parsed j =>
          match parsedScopeMember j (scopeKey k) with
          | some v => some v
          | none => some (.arr [])
        | _ => some (.arr [])) ∧
    (∀ fields : List (String × Json), ∀ k : String, ∀ v : Json,
      (∀ sc : Scope, hasKey fields (scopeKey sc) = true) →
      ∀ sc : Scope, hasKey (jsSet fields k v) (scopeKey sc) = true) := by
  refine ⟨?_, ?_, ?_⟩
  · intro raw k
    cases raw with
    | parsed j => cases j <;> cases k <;> rfl
    | failure => exact hasKey_storeFields emptyStore k
    | absent => exact hasKey_storeFields emptyStore k
    | unparsable => exact hasKey_storeFields emptyStore k
  · intro raw k
    cases raw with
    | failure => cases k <;> rfl
    | absent => cases k <;> rfl
    | unparsable => cases k <;> rfl
    | parsed j =>
      cases j with
      | obj fields =>
        show lookupLast (List.map (overrideEntry fields)
          (storeFields emptyStore) ++ List.filter _ fields) (scopeKey k) = _
        rw [lookupLast_append, lookupLast_eq_none]
        · simp only [parsedScopeMember]
          cases hm : lookupLast fields (scopeKey k) with
          | none =>
            cases k <;> simp [storeFields, emptyStore, lookupLast,
              overrideEntry, scopeKey] at hm ⊢ <;> simp [hm]
          | some v =>
            cases k <;> simp [storeFields, emptyStore, lookupLast,
              overrideEntry, scopeKey] at hm ⊢ <;> simp [hm]
        · intro p hp hpk
          have h1 := (List.mem_filter.mp hp).2
          rw [hpk, hasKey_storeFields emptyStore k] at h1
          simp at h1
      | null => cases k <;> rfl
      | bool b => cases k <;> rfl
      | num n => cases k <;> rfl
      | str s => cases k <;> rfl
      | arr elems => cases k <;> rfl
  · intro fields k v hall sc
    unfold jsSet
    by_cases hc : fields.any (fun p => p.1 == k) = true
    · rw [if_pos hc, hasKey, List.any_map]
      have : ∀ p : String × Json,
          (((if p.1 == k then (p.1, v) else p) : String × Json).1 ==
            scopeKey sc) = (p.1 == scopeKey sc) := by
        intro p
        by_cases hpk : (p.1 == k) = true
        · rw [if_pos hpk]
        · rw [if_neg hpk]
      calc (fields.any fun p =>
              ((if p.1 == k then (p.1, v) else p) : String × Json).1 ==
                scopeKey sc)
          = fields.any fun p => p.1 == scopeKey sc := by
            exact any_congr_mem _ _ _ fun p _ => this p
        _ = true := hall sc
    · rw [if_neg hc, hasKey, List.any_append]
      have h1 := hall sc
      rw [hasKey] at h1
      rw [h1]
      rfl

/-- C5 witness: after a load from empty storage the `"month"` key is
present with the empty sequence, and the key `"year"` survives a
computed-key update of `"today"`. -/
theorem all_scopes_always_present_witness :
    hasKey (loadStore .absent) (scopeKey .month) = true ∧
    lookupLast (loadStore .absent) (scopeKey .month) = some (.arr []) ∧
    hasKey (jsSet (loadStore .absent) "today" (.arr []))
      (scopeKey .year) = true :=
  ⟨all_scopes_always_present.1 .absent .month,
   all_scopes_always_present.2.1 .absent .month,
   all_scopes_always_present.2.2 (loadStore .absent) "today" (.arr [])
     (fun sc => all_scopes_always_present.1 .absent sc) .year⟩

end UbCalendarHub
